import Mathlib

/-!
Shallow embedding of the ncSender wireless-pendant plugin sources:
`src/flasher.js` (USB and OTA firmware flash engines), the Bluetooth
Classic transport manager (`src/bluetooth/bluetooth-manager.js`) and the
BLE transport manager. JavaScript strings are modelled as Lean `String`,
byte buffers as `List Char` (the code only ever treats them as UTF-8
text), numbers as `Nat` / `Int` / `ℚ` (the quantities involved are small
and exact), and the event-driven control flow as explicit state machines
stepped by the events that can occur.
-/

/-- Events emitted by the flash engines, mirroring the EventEmitter
contract of `flasher.js`: `message`, `progress(percent, label)`,
`complete(text)`, `error(text)`. -/
inductive FlashEvent where
  | message (text : String)
  | progress (percent : Nat) (label : String)
  | complete (text : String)
  | error (text : String)
deriving DecidableEq

/-- Is the event a `message` event? -/
def isMessageEvt : FlashEvent → Bool
  | .message _ => true
  | _ => false

/-- Is the event a `progress` event? -/
def isProgressEvt : FlashEvent → Bool
  | .progress _ _ => true
  | _ => false

/-- Is the event a `complete` event? -/
def isCompleteEvt : FlashEvent → Bool
  | .complete _ => true
  | _ => false

/-- Is the event an `error` event? -/
def isErrorEvt : FlashEvent → Bool
  | .error _ => true
  | _ => false

/-- Is the event terminal (`complete` or `error`)? -/
def isTerminalEvt (e : FlashEvent) : Bool := isCompleteEvt e || isErrorEvt e

/-- JavaScript `String.prototype.trim`: strip leading and trailing
whitespace (on the character list to keep kernel evaluation possible). -/
def jsTrim (s : String) : String :=
  String.mk (((s.toList.dropWhile Char.isWhitespace).reverse.dropWhile
    Char.isWhitespace).reverse)

/-- Does `pat` occur as a contiguous substring of `l`
(JavaScript `String.prototype.includes` on character lists)? -/
def hasSubstring (l pat : List Char) : Bool :=
  match l with
  | [] => pat.isEmpty
  | _ :: t => pat.isPrefixOf l || hasSubstring t pat

/-- JavaScript `s.includes(pat)`. -/
def containsSub (s pat : String) : Bool := hasSubstring s.toList pat.toList

/-- A hexadecimal digit, as in the regex class `[\da-fA-F]`. -/
def isHexDigitCh (c : Char) : Bool :=
  c.isDigit || ('a' ≤ c && c ≤ 'f') || ('A' ≤ c && c ≤ 'F')

/-- Value of a decimal digit string, as `parseInt(digits, 10)` computes
on a string of ASCII digits. -/
def digitsVal (ds : List Char) : Nat :=
  ds.foldl (fun n c => 10 * n + (c.toNat - 48)) 0

/-- Drop the literal `lit` from the front of `l`, or fail. -/
def dropLit : List Char → List Char → Option (List Char)
  | [], l => some l
  | p :: ps, c :: cs => if c = p then dropLit ps cs else none
  | _ :: _, [] => none

/-- Attempt the regex `Writing at 0x[\da-fA-F]+\.\.\.\s*\((\d+)\s*%\)`
anchored at the head of `l`, returning the captured digit group.
The greedy quantifiers never need backtracking here because each
character class is disjoint from the literal that follows it. -/
def writingMatchHere (l : List Char) : Option Nat :=
  match dropLit "Writing at 0x".toList l with
  | none => none
  | some r1 =>
    let hex := r1.takeWhile isHexDigitCh
    let r2 := r1.dropWhile isHexDigitCh
    if hex.isEmpty then none else
    match dropLit "...".toList r2 with
    | none => none
    | some r3 =>
      match r3.dropWhile Char.isWhitespace with
      | '(' :: r5 =>
        let ds := r5.takeWhile Char.isDigit
        let r6 := r5.dropWhile Char.isDigit
        if ds.isEmpty then none else
        match r6.dropWhile Char.isWhitespace with
        | '%' :: ')' :: _ => some (digitsVal ds)
        | _ => none
      | _ => none

/-- Unanchored search for the `Writing at 0x...` progress pattern,
as JavaScript `trimmed.match(/Writing at 0x[\da-fA-F]+\.\.\.\s*\((\d+)\s*%\)/)`
scans every start position and returns the first match's digit capture. -/
def writingMatch : List Char → Option Nat
  | [] => none
  | c :: cs =>
    match writingMatchHere (c :: cs) with
    | some n => some n
    | none => writingMatch cs

/-- Either one event or none: one conditional `emitter.emit` call. -/
def optEvents (b : Bool) (e : FlashEvent) : List FlashEvent :=
  if b then [e] else []

/-- Events emitted by the stdout per-line body of `flashUSB`
(`src/flasher.js` lines 75-105) for a non-empty trimmed line, in
emission order: the unconditional `message`, then each independently
triggered `progress` (and the extra `message` for lines containing
`Chip is`). -/
def usbLineEvents (trimmed : String) : List FlashEvent :=
  [FlashEvent.message trimmed]
  ++ (match writingMatch trimmed.toList with
      | some n => [FlashEvent.progress n "Writing firmware..."]
      | none => [])
  ++ optEvents (containsSub trimmed "Connecting")
      (FlashEvent.progress 0 "Connecting to ESP32...")
  ++ optEvents (containsSub trimmed "Chip is") (FlashEvent.message trimmed)
  ++ optEvents (containsSub trimmed "Erasing flash")
      (FlashEvent.progress 0 "Erasing flash...")
  ++ optEvents (containsSub trimmed "Hash of data verified")
      (FlashEvent.progress 100 "Verifying...")
  ++ optEvents (containsSub trimmed "Hard resetting")
      (FlashEvent.progress 100 "Resetting device...")

/-- Processing of one stdout line by `flashUSB`: trim, skip if empty
(`if (!trimmed) continue`), otherwise emit the per-line events. -/
def processStdoutLine (line : String) : List FlashEvent :=
  let trimmed := jsTrim line
  if trimmed = "" then [] else usbLineEvents trimmed

/-- How many of the five recognized progress patterns the trimmed line
matches (the `flashUSB` stdout triggers are independent `if`s). -/
def usbPatternCount (t : String) : Nat :=
  (match writingMatch t.toList with | some _ => 1 | none => 0)
  + (if containsSub t "Connecting" then 1 else 0)
  + (if containsSub t "Erasing flash" then 1 else 0)
  + (if containsSub t "Hash of data verified" then 1 else 0)
  + (if containsSub t "Hard resetting" then 1 else 0)

theorem mem_optEvents {a : FlashEvent} {b : Bool} {e : FlashEvent} :
    a ∈ optEvents b e ↔ b = true ∧ a = e := by
  cases b <;> simp [optEvents]

theorem countP_optEvents (p : FlashEvent → Bool) (b : Bool) (e : FlashEvent) :
    (optEvents b e).countP p = if b then (if p e then 1 else 0) else 0 := by
  cases b <;> simp [optEvents, List.countP_cons]

/-- C7: each recognized esptool stdout pattern triggers its documented
`progress` event: a `Writing at 0x<hex>... (<digits>%)` match emits
`progress(digits, "Writing firmware...")` (in particular the line
`Writing at 0x00012345... (42 %)` emits percent 42), a line containing
`Connecting` emits `progress(0, "Connecting to ESP32...")`, `Erasing
flash` emits `progress(0, "Erasing flash...")`, `Hash of data verified`
emits `progress(100, "Verifying...")`, and `Hard resetting` emits
`progress(100, "Resetting device...")`. -/
theorem flashUSB_progress_patterns :
    (∀ line n, writingMatch (jsTrim line).toList = some n →
      FlashEvent.progress n "Writing firmware..." ∈ processStdoutLine line)
  ∧ (FlashEvent.progress 42 "Writing firmware..." ∈
      processStdoutLine "Writing at 0x00012345... (42 %)")
  ∧ (∀ line, containsSub (jsTrim line) "Connecting" = true →
      FlashEvent.progress 0 "Connecting to ESP32..." ∈ processStdoutLine line)
  ∧ (∀ line, containsSub (jsTrim line) "Erasing flash" = true →
      FlashEvent.progress 0 "Erasing flash..." ∈ processStdoutLine line)
  ∧ (∀ line, containsSub (jsTrim line) "Hash of data verified" = true →
      FlashEvent.progress 100 "Verifying..." ∈ processStdoutLine line)
  ∧ (∀ line, containsSub (jsTrim line) "Hard resetting" = true →
      FlashEvent.progress 100 "Resetting device..." ∈ processStdoutLine line) := by
  refine ⟨?_, by decide, ?_, ?_, ?_, ?_⟩
  · intro line n h
    unfold processStdoutLine
    by_cases he : jsTrim line = ""
    · rw [he] at h
      have : (("" : String)).toList = [] := rfl
      rw [this] at h
      simp [writingMatch] at h
    · simp only [he, if_false]
      simp [usbLineEvents, List.mem_append,
        show writingMatch (jsTrim line).data = some n from h]
  all_goals
    intro line h
    unfold processStdoutLine
    (by_cases he : jsTrim line = "")
    · rw [he] at h; exact absurd h (by decide)
    · simp only [he, if_false]
      simp [usbLineEvents, mem_optEvents, h, List.mem_append]

/-- Witness for `flashUSB_progress_patterns` at concrete lines. -/
theorem flashUSB_progress_patterns_witness :
    FlashEvent.progress 7 "Writing firmware..." ∈
      processStdoutLine "Writing at 0x0A... (7 %)"
  ∧ FlashEvent.progress 0 "Connecting to ESP32..." ∈
      processStdoutLine "Connecting........"
  ∧ FlashEvent.progress 0 "Erasing flash..." ∈
      processStdoutLine "Erasing flash (this may take a while)"
  ∧ FlashEvent.progress 100 "Verifying..." ∈
      processStdoutLine "Hash of data verified."
  ∧ FlashEvent.progress 100 "Resetting device..." ∈
      processStdoutLine "Hard resetting via RTS pin..." :=
  ⟨flashUSB_progress_patterns.1 _ 7 (by decide),
   flashUSB_progress_patterns.2.2.1 _ (by decide),
   flashUSB_progress_patterns.2.2.2.1 _ (by decide),
   flashUSB_progress_patterns.2.2.2.2.1 _ (by decide),
   flashUSB_progress_patterns.2.2.2.2.2 _ (by decide)⟩

/-- C6 counterexample: the line `Chip is ESP32` is non-empty after
trimming yet produces TWO `message` events carrying the trimmed text
(the unconditional emit plus the extra emit inside the `Chip is`
branch), not exactly one. -/
theorem usbLine_double_message_counterexample :
    jsTrim "Chip is ESP32" ≠ ""
  ∧ (processStdoutLine "Chip is ESP32").countP isMessageEvt = 2 := by
  exact ⟨by decide, by decide⟩

/-- C6 (amended): every non-empty trimmed stdout line emits exactly one
`message` event carrying the trimmed text, except lines containing
`Chip is`, which emit it twice; and the number of `progress` events
derived from a line equals the number of recognized patterns it matches
(the triggers are independent, so a line matching several patterns
derives several progress events). -/
theorem usbLine_message_progress_counts :
    ∀ line, jsTrim line ≠ "" →
      ((processStdoutLine line).countP isMessageEvt
        = if containsSub (jsTrim line) "Chip is" then 2 else 1)
    ∧ ((processStdoutLine line).countP isProgressEvt
        = usbPatternCount (jsTrim line)) := by
  intro line h
  unfold processStdoutLine usbPatternCount
  simp only [h, if_false, String.toList]
  constructor
  · cases hw : writingMatch (jsTrim line).data <;>
      simp [usbLineEvents, String.toList, hw, List.countP_append, countP_optEvents,
        isMessageEvt, List.countP_cons] <;>
      split_ifs <;> omega
  · cases hw : writingMatch (jsTrim line).data <;>
      simp [usbLineEvents, String.toList, hw, List.countP_append, countP_optEvents,
        isProgressEvt, List.countP_cons] <;>
      split_ifs <;> omega

/-- Witness for `usbLine_message_progress_counts` at a concrete line. -/
theorem usbLine_message_progress_counts_witness :
    ((processStdoutLine "Hello world").countP isMessageEvt
      = if containsSub (jsTrim "Hello world") "Chip is" then 2 else 1)
  ∧ ((processStdoutLine "Hello world").countP isProgressEvt
      = usbPatternCount (jsTrim "Hello world")) :=
  usbLine_message_progress_counts "Hello world" (by decide)

/-- How JavaScript template interpolation renders the subprocess exit
code: a number prints as its decimal digits, `null` (process killed by a
signal) prints as `null`. -/
def showExitCode : Option Int → String
  | none => "null"
  | some n => toString n

/-- The flush-phase `message` events of the `flashUSB` close handler:
any non-empty trimmed trailing stdout content, then any non-empty
trimmed trailing stderr content with the `[stderr] ` prefix. -/
def closeFlushMessages (stdoutBuffer stderrBuffer : String) : List FlashEvent :=
  (if jsTrim stdoutBuffer = "" then []
   else [FlashEvent.message (jsTrim stdoutBuffer)])
  ++ (if jsTrim stderrBuffer = "" then []
      else [FlashEvent.message ("[stderr] " ++ jsTrim stderrBuffer)])

/-- The terminal event of the `flashUSB` close handler: `complete` for
exit code `0` (`code === 0`), `error` naming the code otherwise. -/
def closeTerminalEvent (code : Option Int) : FlashEvent :=
  if code = some 0 then
    FlashEvent.complete "Firmware flashed successfully. Device is resetting."
  else
    FlashEvent.error
      ("esptool exited with code " ++ showExitCode code ++ ". Check log for details.")

/-- Events emitted by the `flashUSB` `close` handler
(`src/flasher.js` lines 122-135), in order: the buffered-stream flushes,
then exactly one terminal event decided by the exit code. -/
def flushCloseEvents (stdoutBuffer stderrBuffer : String) (code : Option Int) :
    List FlashEvent :=
  closeFlushMessages stdoutBuffer stderrBuffer ++ [closeTerminalEvent code]

/-- C4: on process close, any non-empty trailing buffered stdout/stderr
content is flushed first as `message` events, then exit code `0` yields
exactly one `complete` event and no `error`, and any other exit code
yields exactly one `error` event naming that code and no `complete`. -/
theorem flashUSB_close_events :
    (∀ ob eb code,
      ((flushCloseEvents ob eb code).countP isCompleteEvt
        = if code = some 0 then 1 else 0)
    ∧ ((flushCloseEvents ob eb code).countP isErrorEvt
        = if code = some 0 then 0 else 1)
    ∧ ((flushCloseEvents ob eb code).dropLast.all isMessageEvt = true)
    ∧ ((flushCloseEvents ob eb code).getLast? = some (closeTerminalEvent code)))
  ∧ (flushCloseEvents "partial out" " oops " (some 2) =
      [FlashEvent.message "partial out", FlashEvent.message "[stderr] oops",
       FlashEvent.error "esptool exited with code 2. Check log for details."])
  ∧ (closeTerminalEvent (some 0)
      = FlashEvent.complete "Firmware flashed successfully. Device is resetting.")
  ∧ (∀ code, code ≠ some 0 → closeTerminalEvent code =
      FlashEvent.error
        ("esptool exited with code " ++ showExitCode code ++ ". Check log for details.")) := by
  refine ⟨?_, by decide, by decide, ?_⟩
  · intro ob eb code
    refine ⟨?_, ?_, ?_, ?_⟩ <;>
      by_cases h1 : jsTrim ob = "" <;> by_cases h2 : jsTrim eb = "" <;>
        by_cases h3 : code = some 0 <;>
        simp [flushCloseEvents, closeFlushMessages, closeTerminalEvent, h1, h2, h3,
          List.countP_append, List.countP_cons, isCompleteEvt, isErrorEvt, isMessageEvt]
  · intro code h
    simp [closeTerminalEvent, h]

/-- Witness for `flashUSB_close_events` at exit code 2. -/
theorem flashUSB_close_events_witness :
    ((flushCloseEvents "x" "y" (some 2)).countP isCompleteEvt
      = if some 2 = some 0 then 1 else 0)
  ∧ closeTerminalEvent (some 2) =
      FlashEvent.error "esptool exited with code 2. Check log for details." :=
  ⟨(flashUSB_close_events.1 "x" "y" (some 2)).1,
   (flashUSB_close_events.2.2.2 (some 2) (by decide)).trans (by decide)⟩

/-- Network-level events that can reach the `flashOTA` request handlers:
the response `end` (carrying the accumulated status/body), a request
`error` (carrying the error `code` and message), or the request
`timeout`. -/
inductive OtaNetEvent where
  | respEnd (status : Int) (body : String)
  | reqError (code : String) (message : String)
  | timeout
deriving DecidableEq

/-- One `flashOTA` handler invocation (`src/flasher.js` lines 186-220):
given the `completed` flag, produce the updated flag and the emitted
terminal events. -/
def otaHandleEvent (completed : Bool) : OtaNetEvent → Bool × List FlashEvent
  | .respEnd status body =>
    if completed then (completed, [])
    else (true,
      [if 200 ≤ status && status < 300 then
        FlashEvent.complete ("OTA update successful. "
          ++ (if body = "" then "Device is rebooting." else body))
       else
        FlashEvent.error ("OTA update failed (HTTP " ++ toString status ++ "): "
          ++ (if body = "" then "Unknown error" else body))])
  | .reqError code message =>
    if completed then (completed, [])
    else if code = "EPIPE" || code = "ECONNRESET" then
      (true, [FlashEvent.complete "OTA update sent. Device is rebooting."])
    else
      (true, [FlashEvent.error ("OTA connection failed: " ++ message)])
  | .timeout =>
    if !completed then (true, [FlashEvent.error "OTA connection timed out"])
    else (completed, [])

/-- Run the `flashOTA` handlers over a sequence of network events,
threading the `completed` flag and collecting emissions in order. -/
def otaRun (completed : Bool) : List OtaNetEvent → Bool × List FlashEvent
  | [] => (completed, [])
  | e :: es =>
    let r1 := otaHandleEvent completed e
    let r2 := otaRun r1.1 es
    (r2.1, r1.2 ++ r2.2)

/-- The terminal event the first-arriving network event determines. -/
def otaTerminalFor : OtaNetEvent → FlashEvent
  | .respEnd status body =>
    if 200 ≤ status && status < 300 then
      FlashEvent.complete ("OTA update successful. "
        ++ (if body = "" then "Device is rebooting." else body))
    else
      FlashEvent.error ("OTA update failed (HTTP " ++ toString status ++ "): "
        ++ (if body = "" then "Unknown error" else body))
  | .reqError code message =>
    if code = "EPIPE" || code = "ECONNRESET" then
      FlashEvent.complete "OTA update sent. Device is rebooting."
    else
      FlashEvent.error ("OTA connection failed: " ++ message)
  | .timeout => FlashEvent.error "OTA connection timed out"

theorem otaRun_completed (es : List OtaNetEvent) : otaRun true es = (true, []) := by
  induction es with
  | nil => rfl
  | cons e es ih =>
    cases e <;> simp [otaRun, otaHandleEvent, ih]

theorem otaHandleEvent_first (e : OtaNetEvent) :
    otaHandleEvent false e = (true, [otaTerminalFor e]) := by
  cases e <;> simp [otaHandleEvent, otaTerminalFor] <;> split_ifs <;> rfl

/-- C1: a `flashOTA` invocation emits exactly one terminal event, the
one classified from the first network event to arrive — `EPIPE` or
`ECONNRESET` connection errors become `complete`, any other connection
error becomes `error`, a timeout with no terminal event yet becomes
`error`, an HTTP status in `[200,300)` becomes `complete` and any other
status becomes `error` — and the `completed` flag suppresses every
later emission, including a late response after a timeout. -/
theorem flashOTA_single_terminal :
    (∀ e es, otaRun false (e :: es) = (true, [otaTerminalFor e]))
  ∧ (∀ e, isTerminalEvt (otaTerminalFor e) = true)
  ∧ (∀ code msg, otaTerminalFor (.reqError code msg)
      = if code = "EPIPE" || code = "ECONNRESET" then
          FlashEvent.complete "OTA update sent. Device is rebooting."
        else FlashEvent.error ("OTA connection failed: " ++ msg))
  ∧ (∀ status body, otaTerminalFor (.respEnd status body)
      = if 200 ≤ status && status < 300 then
          FlashEvent.complete ("OTA update successful. "
            ++ (if body = "" then "Device is rebooting." else body))
        else FlashEvent.error ("OTA update failed (HTTP " ++ toString status ++ "): "
            ++ (if body = "" then "Unknown error" else body)))
  ∧ (otaTerminalFor .timeout = FlashEvent.error "OTA connection timed out")
  ∧ (otaRun false [.timeout, .respEnd 200 ""]
      = (true, [FlashEvent.error "OTA connection timed out"]))
  ∧ (otaRun false [.reqError "ECONNRESET" "socket hang up", .timeout]
      = (true, [FlashEvent.complete "OTA update sent. Device is rebooting."])) := by
  refine ⟨?_, ?_, fun _ _ => rfl, fun _ _ => rfl, rfl, by decide, by decide⟩
  · intro e es
    simp [otaRun, otaHandleEvent_first, otaRun_completed]
  · intro e
    cases e <;> simp [otaTerminalFor, isTerminalEvt, isCompleteEvt, isErrorEvt] <;>
      split_ifs <;> simp

/-- The fixed upload chunk size of `flashOTA` (16 KiB). -/
def otaChunkSize : Nat := 16384

/-- JavaScript `Math.round` on an exact rational: round half toward
positive infinity. -/
def jsRound (q : ℚ) : Int := ⌊q + 1/2⌋

/-- The per-chunk progress percent of `flashOTA` (`src/flasher.js` line
232): `Math.min(Math.round((Math.max(0, offset - header.length) /
fileSize) * 100), 100)` computed in exact arithmetic. -/
def otaPercent (headerLen fileSize offset : Nat) : Int :=
  min (jsRound (((max 0 ((offset : Int) - headerLen) : Int) : ℚ) / (fileSize : ℚ) * 100))
    100

/-- The successive values of `offset` after each chunk write of the
`writeNext` loop: starting from `offset`, step by the chunk size,
clamped to the body length `total`. -/
def otaOffsets (offset total : Nat) : List Nat :=
  if _h : offset < total then
    let next := min (offset + otaChunkSize) total
    next :: otaOffsets next total
  else []
termination_by total - offset
decreasing_by
  simp only [otaChunkSize]
  omega

/-- The sequence of `progress` percentages `flashOTA` emits while
uploading a body of `headerLen + fileSize + footerLen` bytes (multipart
header, firmware, footer), one entry per chunk written. -/
def otaProgressList (headerLen fileSize footerLen : Nat) : List Int :=
  (otaOffsets 0 (headerLen + fileSize + footerLen)).map (otaPercent headerLen fileSize)

theorem otaPercent_mono (h S : Nat) {o1 o2 : Nat} (ho : o1 ≤ o2) :
    otaPercent h S o1 ≤ otaPercent h S o2 := by
  unfold otaPercent jsRound
  refine min_le_min ?_ le_rfl
  refine Int.floor_le_floor ?_
  have hmax : (max 0 ((o1:Int) - h)) ≤ (max 0 ((o2:Int) - h)) := by omega
  have hq : ((max 0 ((o1:Int) - h) : Int) : ℚ) ≤ ((max 0 ((o2:Int) - h) : Int) : ℚ) := by
    exact_mod_cast hmax
  have hS : (0:ℚ) ≤ (S:ℚ) := by positivity
  gcongr

theorem otaPercent_nonneg (h S o : Nat) : 0 ≤ otaPercent h S o := by
  unfold otaPercent jsRound
  refine le_min ?_ (by norm_num)
  refine Int.le_floor.mpr ?_
  have hnum : (0:ℚ) ≤ ((max 0 ((o:Int) - h) : Int) : ℚ) := by
    exact_mod_cast le_max_left 0 ((o:Int) - h)
  have h1 : (0:ℚ) ≤ ((max 0 ((o:Int) - h) : Int) : ℚ) / (S:ℚ) * 100 :=
    mul_nonneg (div_nonneg hnum (by positivity)) (by norm_num)
  push_cast at h1 ⊢
  linarith

theorem otaPercent_le_100 (h S o : Nat) : otaPercent h S o ≤ 100 :=
  min_le_right _ _

theorem otaPercent_total (h S f : Nat) (hS : 0 < S) (hf : 0 < f) :
    otaPercent h S (h + S + f) = 100 := by
  unfold otaPercent jsRound
  have hmax : (max 0 ((↑(h + S + f):Int) - h)) = ((S : Int) + f) := by omega
  rw [hmax]
  have hS' : (0:ℚ) < (S:ℚ) := by exact_mod_cast hS
  have hq : (100 : ℚ) ≤ (((S : Int) + f : Int) : ℚ) / (S:ℚ) * 100 := by
    rw [div_mul_eq_mul_div, le_div_iff₀ hS']
    push_cast
    nlinarith [hf, hS]
  refine min_eq_right ?_
  refine Int.le_floor.mpr ?_
  push_cast at hq ⊢
  linarith

theorem otaOffsets_mem_ge (off total : Nat) :
    ∀ b ∈ otaOffsets off total, off ≤ b := by
  generalize hfuel : total - off = fuel
  induction fuel using Nat.strong_induction_on generalizing off with
  | _ fuel ih =>
    rw [otaOffsets]
    by_cases h : off < total
    · simp only [h, dif_pos]
      have hc : otaChunkSize = 16384 := rfl
      intro b hb
      rcases List.mem_cons.mp hb with hb | hb
      · omega
      · have := ih (total - min (off + otaChunkSize) total) (by omega) _ rfl b hb
        omega
    · simp [h]

theorem otaOffsets_chain (off total : Nat) :
    List.Chain' (· ≤ ·) (otaOffsets off total) := by
  generalize hfuel : total - off = fuel
  induction fuel using Nat.strong_induction_on generalizing off with
  | _ fuel ih =>
    rw [otaOffsets]
    by_cases h : off < total
    · simp only [h, dif_pos]
      have hc : otaChunkSize = 16384 := rfl
      refine List.chain'_cons'.mpr ⟨?_, ?_⟩
      · intro b hb
        exact otaOffsets_mem_ge _ _ b (List.mem_of_mem_head? hb)
      · exact ih (total - min (off + otaChunkSize) total) (by omega) _ rfl
    · simp [h]

theorem otaOffsets_getLast (off total : Nat) (h : off < total) :
    (otaOffsets off total).getLast? = some total := by
  generalize hfuel : total - off = fuel
  induction fuel using Nat.strong_induction_on generalizing off with
  | _ fuel ih =>
    rw [otaOffsets]
    simp only [h, dif_pos]
    have hc : otaChunkSize = 16384 := rfl
    by_cases h2 : min (off + otaChunkSize) total < total
    · have ihx := ih (total - min (off + otaChunkSize) total) (by omega)
        (min (off + otaChunkSize) total) h2 rfl
      rw [List.getLast?_cons, ihx]
      rfl
    · have hmin : min (off + otaChunkSize) total = total := by omega
      rw [hmin, otaOffsets]
      simp

/-- C8 counterexample: with header length 150, firmware size 32768 and
footer length 46, the emitted percent sequence is `[50, 100, 100]` —
the percent already reaches 100 after the second chunk, when only 32768
of the 32964 body bytes have been written, so 100 is NOT reached
exactly when all chunks including header and footer have been written. -/
theorem flashOTA_progress_100_early_counterexample :
    otaProgressList 150 32768 46 = [50, 100, 100]
  ∧ otaOffsets 0 (150 + 32768 + 46) = [16384, 32768, 32964]
  ∧ (32768 : Nat) ≠ 150 + 32768 + 46 := by
  have hoff : otaOffsets 0 (150 + 32768 + 46) = [16384, 32768, 32964] := by
    simp [otaOffsets, otaChunkSize]
  refine ⟨?_, hoff, by norm_num⟩
  rw [otaProgressList, hoff]
  simp only [List.map_cons, List.map_nil]
  norm_num [otaPercent, jsRound]

/-- C8 (amended): every per-chunk progress percent equals
`round(max(0, bytesWritten - headerLength) / S * 100)` capped at 100,
the emitted sequence is non-decreasing with every value in `[0, 100]`,
and the percent is 100 once all chunks including header and footer have
been written (the final chunk always reports 100) — though rounding can
already produce 100 on an earlier chunk. -/
theorem flashOTA_progress_percentages (h S f : Nat) (hS : 0 < S) (hf : 0 < f) :
    otaProgressList h S f = (otaOffsets 0 (h + S + f)).map (otaPercent h S)
  ∧ List.Chain' (· ≤ ·) (otaProgressList h S f)
  ∧ (∀ p ∈ otaProgressList h S f, 0 ≤ p ∧ p ≤ 100)
  ∧ (otaProgressList h S f).getLast? = some 100 := by
  refine ⟨rfl, ?_, ?_, ?_⟩
  · rw [otaProgressList, List.chain'_map]
    exact (otaOffsets_chain 0 (h + S + f)).imp (fun a b hab => otaPercent_mono h S hab)
  · intro p hp
    rw [otaProgressList, List.mem_map] at hp
    obtain ⟨o, _, rfl⟩ := hp
    exact ⟨otaPercent_nonneg h S o, otaPercent_le_100 h S o⟩
  · rw [otaProgressList, List.getLast?_map, otaOffsets_getLast 0 (h + S + f) (by omega)]
    simp [otaPercent_total h S f hS hf]

/-- Witness for `flashOTA_progress_percentages` at concrete sizes. -/
theorem flashOTA_progress_percentages_witness :
    otaProgressList 150 32768 46 = (otaOffsets 0 (150 + 32768 + 46)).map (otaPercent 150 32768)
  ∧ List.Chain' (· ≤ ·) (otaProgressList 150 32768 46)
  ∧ (∀ p ∈ otaProgressList 150 32768 46, 0 ≤ p ∧ p ≤ 100)
  ∧ (otaProgressList 150 32768 46).getLast? = some 100 :=
  flashOTA_progress_percentages 150 32768 46 (by decide) (by decide)

/-- Find the first `\n` in the buffer, as the `while ((newlineIndex =
this.buffer.indexOf('\n')) !== -1)` loop head does, returning the slice
before it and the remainder after it. -/
def splitFirstNL : List Char → Option (List Char × List Char)
  | [] => none
  | c :: cs =>
    if c = '\n' then some ([], cs)
    else (splitFirstNL cs).map (fun p => (c :: p.1, p.2))

theorem splitFirstNL_some {buf l r : List Char} (h : splitFirstNL buf = some (l, r)) :
    buf = l ++ '\n' :: r ∧ '\n' ∉ l := by
  induction buf generalizing l r with
  | nil => simp [splitFirstNL] at h
  | cons c cs ih =>
    rw [splitFirstNL] at h
    by_cases hc : c = '\n'
    · simp [hc] at h
      obtain ⟨rfl, rfl⟩ := h
      subst hc
      simp
    · simp only [hc, if_false, Option.map_eq_some'] at h
      obtain ⟨⟨p1, p2⟩, hp, heq⟩ := h
      cases heq
      obtain ⟨hb, hn⟩ := ih hp
      subst hb
      simp [hn]
      exact fun he => hc he.symm

theorem splitFirstNL_none {buf : List Char} : splitFirstNL buf = none ↔ '\n' ∉ buf := by
  induction buf with
  | nil => simp [splitFirstNL]
  | cons c cs ih =>
    rw [splitFirstNL]
    by_cases hc : c = '\n' <;> simp [hc, ih]
    intro h; exact fun he => hc he.symm

theorem splitFirstNL_append_left {a : List Char} (r : List Char) (h : '\n' ∉ a) :
    splitFirstNL (a ++ '\n' :: r) = some (a, r) := by
  induction a with
  | nil => simp [splitFirstNL]
  | cons c cs ih =>
    have hc : ¬ (c = '\n') := fun hEq => h (by simp [hEq])
    have hcs : '\n' ∉ cs := fun hm => h (by simp [hm])
    rw [List.cons_append, splitFirstNL, if_neg hc, ih hcs]
    rfl

/-- The line framer shared by `BluetoothManager.handleData` and
`BLEManager.handleData`: repeatedly slice off the text before the first
`\n` of the buffer as a line, leaving the remainder after the last
`\n` buffered. -/
def framer (buf : List Char) : List (List Char) × List Char :=
  match h : splitFirstNL buf with
  | none => ([], buf)
  | some (line, rest) =>
    let p := framer rest
    (line :: p.1, p.2)
termination_by buf.length
decreasing_by
  have := (splitFirstNL_some h).1
  subst this
  simp
  omega

theorem framer_of_none {buf : List Char} (h : splitFirstNL buf = none) :
    framer buf = ([], buf) := by
  rw [framer, h]

theorem framer_append (a b : List Char) :
    framer (a ++ b)
      = ((framer a).1 ++ (framer ((framer a).2 ++ b)).1,
         (framer ((framer a).2 ++ b)).2) := by
  generalize hfuel : a.length = fuel
  induction fuel using Nat.strong_induction_on generalizing a with
  | _ fuel ih =>
    cases h : splitFirstNL a with
    | none =>
      have ha : framer a = ([], a) := by rw [framer, h]
      rw [ha]
      simp
    | some p =>
      obtain ⟨l, r⟩ := p
      obtain ⟨hbuf, hnl⟩ := splitFirstNL_some h
      have ha : framer a = (l :: (framer r).1, (framer r).2) := by rw [framer, h]
      have hab : splitFirstNL (a ++ b) = some (l, r ++ b) := by
        rw [hbuf, List.append_assoc, List.cons_append]
        exact splitFirstNL_append_left (r ++ b) hnl
      have hfr : framer (a ++ b) = (l :: (framer (r ++ b)).1, (framer (r ++ b)).2) := by
        rw [framer, hab]
      have hlen : r.length < fuel := by
        subst hfuel hbuf
        simp
        omega
      have ihr := ih r.length hlen r rfl
      rw [hfr, ha, ihr]
      simp

theorem framer_noNL (buf : List Char) : '\n' ∉ (framer buf).2 := by
  generalize hfuel : buf.length = fuel
  induction fuel using Nat.strong_induction_on generalizing buf with
  | _ fuel ih =>
    cases h : splitFirstNL buf with
    | none =>
      rw [framer, h]
      exact splitFirstNL_none.mp h
    | some p =>
      obtain ⟨l, r⟩ := p
      obtain ⟨hbuf, _⟩ := splitFirstNL_some h
      rw [framer, h]
      have hlen : r.length < fuel := by
        subst hfuel hbuf
        simp
        omega
      exact ih r.length hlen r rfl

theorem framer_reconstruct (buf : List Char) :
    ((framer buf).1.map (fun l => l ++ ['\n'])).flatten ++ (framer buf).2 = buf := by
  generalize hfuel : buf.length = fuel
  induction fuel using Nat.strong_induction_on generalizing buf with
  | _ fuel ih =>
    cases h : splitFirstNL buf with
    | none =>
      rw [framer, h]
      simp
    | some p =>
      obtain ⟨l, r⟩ := p
      obtain ⟨hbuf, _⟩ := splitFirstNL_some h
      rw [framer, h]
      have hlen : r.length < fuel := by
        subst hfuel hbuf
        simp
        omega
      have ihr := ih r.length hlen r rfl
      simp only [List.map_cons, List.flatten_cons, List.append_assoc]
      rw [ihr, hbuf]
      simp

/-- Observable effects of inbound transport line handling: a message
delivered to `ctx.submitClientMessage(transportId, clientId, message)`,
or a logged parse error for a non-JSON line. -/
inductive TransportOut (M : Type) where
  | submit (transportId : String) (clientId : Option String) (message : M)
  | parseErrorLog (line : String)
deriving DecidableEq

/-- Per-line behavior of `handleData` (both managers): trim the slice,
skip it if empty, otherwise attempt the JSON parse (`parse` stands for
the external `JSON.parse`) — delivering on success, logging on failure. -/
def lineOut {M : Type} (parse : String → Option M) (tid : String) (cid : Option String)
    (l : List Char) : Option (TransportOut M) :=
  let line := jsTrim (String.mk l)
  if line = "" then none
  else
    match parse line with
    | some m => some (.submit tid cid m)
    | none => some (.parseErrorLog line)

/-- Model of `handleData` of either transport manager
(`src/bluetooth/bluetooth-manager.js` lines 150-167 and the identical
BLE version): append the chunk to the buffer, extract every complete
line in wire order and process each, keeping the trailing fragment. -/
def handleData {M : Type} (parse : String → Option M) (tid : String) (cid : Option String)
    (buffer chunk : List Char) : List Char × List (TransportOut M) :=
  let p := framer (buffer ++ chunk)
  (p.2, p.1.filterMap (lineOut parse tid cid))

/-- Feed a sequence of inbound chunks through `handleData` one at a
time, threading the buffer and concatenating the outputs. -/
def feedChunks {M : Type} (parse : String → Option M) (tid : String) (cid : Option String)
    (buffer : List Char) : List (List Char) → List Char × List (TransportOut M)
  | [] => (buffer, [])
  | c :: cs =>
    let p1 := handleData parse tid cid buffer c
    let p2 := feedChunks parse tid cid p1.1 cs
    (p2.1, p1.2 ++ p2.2)

theorem feedChunks_flatten {M : Type} (parse : String → Option M) (tid : String)
    (cid : Option String) :
    ∀ (chunks : List (List Char)) (buffer : List Char), '\n' ∉ buffer →
      feedChunks parse tid cid buffer chunks
        = handleData parse tid cid buffer chunks.flatten := by
  intro chunks
  induction chunks with
  | nil =>
    intro buffer hb
    rw [feedChunks, List.flatten_nil, handleData]
    rw [List.append_nil, framer_of_none (splitFirstNL_none.mpr hb)]
    simp
  | cons c cs ih =>
    intro buffer hb
    rw [feedChunks, List.flatten_cons]
    have h1 : '\n' ∉ (handleData parse tid cid buffer c).1 := framer_noNL _
    rw [ih _ h1]
    show ((handleData parse tid cid (handleData parse tid cid buffer c).1 cs.flatten).1,
      (handleData parse tid cid buffer c).2
        ++ (handleData parse tid cid (handleData parse tid cid buffer c).1 cs.flatten).2)
      = handleData parse tid cid buffer (c ++ cs.flatten)
    simp only [handleData]
    rw [← List.append_assoc, framer_append (buffer ++ c) cs.flatten]
    simp [List.filterMap_append]

/-- A stand-in for `JSON.parse` in the concrete demonstration below:
only the line `abc` parses (to the message `1`). -/
def demoParse : String → Option Nat := fun s => if s = "abc" then some 1 else none

/-- C2: feeding the inbound bytes through `handleData` in any chunking
produces the same delivered/logged outputs and the same final buffer as
feeding the concatenation at once, so the delivery sequence is
chunking-independent; the retained buffer never contains a newline; the
extracted lines followed by the retained fragment reconstruct the wire
bytes exactly; and on a concrete feed, parsable lines are delivered
once in order, a non-JSON line is logged (not delivered), whitespace
lines are skipped, and the trailing fragment stays buffered. -/
theorem transport_handleData_chunk_invariance :
    (∀ (M : Type) (parse : String → Option M) (tid : String) (cid : Option String)
        (chunks : List (List Char)),
      feedChunks parse tid cid [] chunks = handleData parse tid cid [] chunks.flatten)
  ∧ (∀ (M : Type) (parse : String → Option M) (tid : String) (cid : Option String)
        (chunks1 chunks2 : List (List Char)), chunks1.flatten = chunks2.flatten →
      feedChunks parse tid cid [] chunks1 = feedChunks parse tid cid [] chunks2)
  ∧ (∀ (M : Type) (parse : String → Option M) (tid : String) (cid : Option String)
        (buffer chunk : List Char), '\n' ∉ (handleData parse tid cid buffer chunk).1)
  ∧ (∀ buf : List Char,
      ((framer buf).1.map (fun l => l ++ ['\n'])).flatten ++ (framer buf).2 = buf)
  ∧ (feedChunks demoParse "bluetooth-pendant" (some "bt-aabbcc") []
      ["ab".toList, "c\nnot".toList, " a \n \nrest".toList]
    = ("rest".toList,
       [.submit "bluetooth-pendant" (some "bt-aabbcc") 1,
        .parseErrorLog "not a"])) := by
  refine ⟨?_, ?_, ?_, framer_reconstruct, ?_⟩
  · intro M parse tid cid chunks
    exact feedChunks_flatten parse tid cid chunks [] (by simp)
  · intro M parse tid cid chunks1 chunks2 hflat
    rw [feedChunks_flatten parse tid cid chunks1 [] (by simp),
      feedChunks_flatten parse tid cid chunks2 [] (by simp), hflat]
  · intro M parse tid cid buffer chunk
    exact framer_noNL _
  · simp [feedChunks, handleData, framer, splitFirstNL, lineOut, jsTrim, demoParse]

/-- Witness for `transport_handleData_chunk_invariance`: two different
chunkings of the same bytes give identical outputs. -/
theorem transport_handleData_chunk_invariance_witness :
    feedChunks demoParse "ble-pendant" (some "ble-aabbcc") []
      ["a\n".toList, "b".toList]
  = feedChunks demoParse "ble-pendant" (some "ble-aabbcc") []
      ["a".toList, "\nb".toList] :=
  transport_handleData_chunk_invariance.2.1 Nat demoParse "ble-pendant"
    (some "ble-aabbcc") ["a\n".toList, "b".toList] ["a".toList, "\nb".toList]
    (by decide)

/-- The `RECONNECT_DELAY_MS` constant of both transport managers. -/
def RECONNECT_DELAY_MS : Nat := 5000

/-- A Bluetooth Classic device descriptor (address and SPP channel). -/
structure BTDevice where
  address : String
  channel : Nat
deriving DecidableEq

/-- The settings the Classic manager reads: `bluetoothDevice` and
`bluetoothAutoConnect` (the code treats `!== false` as enabled, so a
`Bool` models it). -/
structure BTSettings where
  bluetoothDevice : Option BTDevice
  bluetoothAutoConnect : Bool
deriving DecidableEq

/-- An armed reconnect timer: the delay and the saved device the
`setTimeout` closure captured at scheduling time. -/
structure BTTimer where
  delayMs : Nat
  device : BTDevice
deriving DecidableEq

/-- State of the Bluetooth Classic manager. `timers` is the collection
of currently armed reconnect timers — the code keeps at most one handle
in `this.reconnectTimer`, and modelling a list lets the single-timer
invariant be proved rather than assumed. `sessions` counts connections
opened and not yet torn down, and `attempts` counts `tryConnect`
invocations; both are observers used to state the claims. -/
structure BTState where
  connectedDevice : Option BTDevice
  clientId : Option String
  buffer : List Char
  timers : List BTTimer
  isShuttingDown : Bool
  settings : BTSettings
  sessions : Nat
  attempts : Nat
deriving DecidableEq

/-- The derived client id: `bt-` plus the address with `:` stripped
(`bt-${address.replace(/:/g, '')}`). -/
def btClientId (address : String) : String :=
  "bt-" ++ String.mk (address.toList.filter (fun c => c ≠ ':'))

/-- Model of `clearReconnectTimer`: cancel the pending timer, if any. -/
def btClearReconnectTimer (s : BTState) : BTState := { s with timers := [] }

/-- The timer `scheduleReconnect` arms after clearing: one 5000 ms timer
capturing the saved device, provided a saved device address exists and
auto-connect is not disabled (`!savedDevice?.address || !autoConnect`
returns early). -/
def btArmedTimers (st : BTSettings) : List BTTimer :=
  match st.bluetoothDevice with
  | some d =>
    if d.address != "" && st.bluetoothAutoConnect then [⟨RECONNECT_DELAY_MS, d⟩] else []
  | none => []

/-- Model of `scheduleReconnect` (`src/bluetooth/bluetooth-manager.js` lines
197-220): clear any pending timer first, then arm per the settings. -/
def btScheduleReconnect (s : BTState) : BTState :=
  let s1 := btClearReconnectTimer s
  { s1 with timers := btArmedTimers s1.settings }

/-- Model of `tryConnect`: one connection attempt; on success capture the device,
derive the client id, reset the line buffer and register the session's
listeners (counted by `sessions`). -/
def btTryConnect (s : BTState) (d : BTDevice) (ok : Bool) : BTState :=
  let s1 := { s with attempts := s.attempts + 1 }
  if ok then
    { s1 with connectedDevice := some d,
              clientId := some (btClientId d.address),
              buffer := [],
              sessions := s1.sessions + 1 }
  else s1

/-- Model of `disconnect`: clear the timer, close any open connection, and clear
the session fields together. -/
def btDisconnect (s : BTState) : BTState :=
  let s1 := btClearReconnectTimer s
  { s1 with connectedDevice := none, clientId := none, buffer := [], sessions := 0 }

/-- Model of `handleDisconnect`: clear the session fields together and, unless
shutting down, schedule a reconnect. -/
def btHandleDisconnect (s : BTState) : BTState :=
  let s1 := { s with connectedDevice := none, clientId := none, buffer := [] }
  if !s1.isShuttingDown then btScheduleReconnect s1 else s1

/-- A `closed` (or `failure`) event from the serial port: the physical
session is over; the registered listener runs `handleDisconnect` only
when not shutting down. -/
def btClosedEvent (s : BTState) : BTState :=
  let s1 := { s with sessions := 0 }
  if !s1.isShuttingDown then btHandleDisconnect s1 else s1

/-- The prefix of `connect` before the connection attempt: clear any
pending reconnect timer, and tear down the existing session if one is
active. -/
def btConnectPrep (s : BTState) : BTState :=
  let s1 := btClearReconnectTimer s
  if s1.connectedDevice.isSome then btDisconnect s1 else s1

/-- Model of `connect(address, channel)` (`src/bluetooth/bluetooth-manager.js`
lines 135-148): prep, attempt, and on success persist the device with
auto-connect enabled. -/
def btConnect (s : BTState) (d : BTDevice) (ok : Bool) : BTState :=
  let s1 := btConnectPrep s
  let s2 := btTryConnect s1 d ok
  if ok then
    { s2 with settings := { bluetoothDevice := some d, bluetoothAutoConnect := true } }
  else s2

/-- The armed reconnect timer fires: the callback returns immediately
when shutting down or already connected, otherwise attempts the captured
device and reschedules on failure. -/
def btFire (s : BTState) (ok : Bool) : BTState :=
  match s.timers with
  | [] => s
  | t :: rest =>
    let s1 := { s with timers := rest }
    if s1.isShuttingDown || s1.connectedDevice.isSome then s1
    else
      let s2 := btTryConnect s1 t.device ok
      if ok then s2 else btScheduleReconnect s2

/-- Model of `shutdown` (`src/bluetooth/bluetooth-manager.js` lines 245-249):
raise the flag, then disconnect. -/
def btShutdown (s : BTState) : BTState :=
  btDisconnect { s with isShuttingDown := true }

/-- The operations and events that can act on an initialized Classic
manager. `ok` carries whether the underlying connection attempt
succeeds. -/
inductive BTAction where
  | connect (d : BTDevice) (ok : Bool)
  | closedEvent
  | failureEvent
  | fireReconnect (ok : Bool)
  | dataEvent (chunk : List Char)
  | disconnect
  | shutdown
  | updateSettings (st : BTSettings)

/-- One step of the Classic manager. A `failure` event is handled like
`closed` (log, then the same guard into `handleDisconnect`); a data
event only advances the line buffer. -/
def btStep (s : BTState) : BTAction → BTState
  | .connect d ok => btConnect s d ok
  | .closedEvent => btClosedEvent s
  | .failureEvent => btClosedEvent s
  | .fireReconnect ok => btFire s ok
  | .dataEvent chunk => { s with buffer := (framer (s.buffer ++ chunk)).2 }
  | .disconnect => btDisconnect s
  | .shutdown => btShutdown s
  | .updateSettings st => { s with settings := st }

/-- The state right after `initialize` succeeds. -/
def btInit : BTState :=
  { connectedDevice := none, clientId := none, buffer := [], timers := [],
    isShuttingDown := false,
    settings := { bluetoothDevice := none, bluetoothAutoConnect := true },
    sessions := 0, attempts := 0 }

/-- Run a sequence of actions from a state. -/
def btRun (s : BTState) (acts : List BTAction) : BTState := acts.foldl btStep s

/-- The inductive invariant of the Classic manager: at most one armed
reconnect timer, at most one live session, no session while
disconnected, and the client id present exactly when a device is
connected. -/
def BTInv (s : BTState) : Prop :=
  s.timers.length ≤ 1
  ∧ s.sessions ≤ 1
  ∧ (s.connectedDevice = none → s.sessions = 0)
  ∧ s.clientId.isSome = s.connectedDevice.isSome

theorem btArmedTimers_len (st : BTSettings) : (btArmedTimers st).length ≤ 1 := by
  unfold btArmedTimers
  cases st.bluetoothDevice <;> simp
  split_ifs <;> simp

theorem btInv_init : BTInv btInit := by
  refine ⟨?_, ?_, ?_, ?_⟩ <;> simp [btInit, BTInv]

theorem btInv_step (s : BTState) (a : BTAction) (h : BTInv s) : BTInv (btStep s a) := by
  obtain ⟨h1, h2, h3, h4⟩ := h
  cases a with
  | connect d ok =>
    cases ok <;>
      simp_all [btStep, btConnect, btConnectPrep, btTryConnect, btDisconnect,
        btClearReconnectTimer, BTInv] <;>
      split_ifs <;> simp_all
  | closedEvent =>
    by_cases hs : s.isShuttingDown <;>
      simp_all [btStep, btClosedEvent, btHandleDisconnect, btScheduleReconnect,
        btClearReconnectTimer, BTInv, btArmedTimers_len]
  | failureEvent =>
    by_cases hs : s.isShuttingDown <;>
      simp_all [btStep, btClosedEvent, btHandleDisconnect, btScheduleReconnect,
        btClearReconnectTimer, BTInv, btArmedTimers_len]
  | fireReconnect ok =>
    have hlen := btArmedTimers_len s.settings
    cases ht : s.timers with
    | nil => simp_all [btStep, btFire, BTInv]
    | cons t rest =>
      cases ok <;>
        simp_all [btStep, btFire, btTryConnect, btScheduleReconnect,
          btClearReconnectTimer, BTInv] <;>
        split_ifs <;> simp_all
  | dataEvent chunk => simp_all [btStep, BTInv]
  | disconnect => simp_all [btStep, btDisconnect, btClearReconnectTimer, BTInv]
  | shutdown => simp_all [btStep, btShutdown, btDisconnect, btClearReconnectTimer, BTInv]
  | updateSettings st => simp_all [btStep, BTInv]

theorem btInv_run (s : BTState) (acts : List BTAction) (h : BTInv s) :
    BTInv (btRun s acts) := by
  induction acts generalizing s with
  | nil => exact h
  | cons a as ih => exact ih _ (btInv_step s a h)

/-- A BLE device descriptor (peripheral id and advertised name). -/
structure BLEDevice where
  id : String
  name : String
deriving DecidableEq

/-- The settings the BLE manager reads: `bleDevice` and
`bleAutoConnect` (`!== false` as a `Bool`). -/
structure BLESettings where
  bleDevice : Option BLEDevice
  bleAutoConnect : Bool
deriving DecidableEq

/-- An armed BLE reconnect timer with its captured saved device. -/
structure BLETimer where
  delayMs : Nat
  device : BLEDevice
deriving DecidableEq

/-- State of the BLE manager; fields mirror the `BLEManager`
constructor (`connectedPeripheral`, `rxCharacteristic`,
`txCharacteristic`, `connectedDevice`, `clientId`, `buffer`,
`reconnectTimer`, `isShuttingDown`), plus the same observer counters as
the Classic model. -/
structure BLEState where
  connectedPeripheral : Option String
  rxCharacteristic : Bool
  txCharacteristic : Bool
  connectedDevice : Option BLEDevice
  clientId : Option String
  buffer : List Char
  timers : List BLETimer
  isShuttingDown : Bool
  settings : BLESettings
  sessions : Nat
  attempts : Nat
deriving DecidableEq

/-- The derived BLE client id:
`ble-${deviceId.replace(/[:-]/g, '')}`. -/
def bleClientId (deviceId : String) : String :=
  "ble-" ++ String.mk (deviceId.toList.filter (fun c => c ≠ ':' && c ≠ '-'))

/-- BLE `clearReconnectTimer`. -/
def bleClearReconnectTimer (s : BLEState) : BLEState := { s with timers := [] }

/-- The timer BLE `scheduleReconnect` arms after clearing: one 5000 ms
timer capturing the saved device, provided `savedDevice?.id` exists and
auto-connect is enabled. -/
def bleArmedTimers (st : BLESettings) : List BLETimer :=
  match st.bleDevice with
  | some d =>
    if d.id != "" && st.bleAutoConnect then [⟨RECONNECT_DELAY_MS, d⟩] else []
  | none => []

/-- BLE `scheduleReconnect`: clear any pending timer first, then arm
per the settings. -/
def bleScheduleReconnect (s : BLEState) : BLEState :=
  let s1 := bleClearReconnectTimer s
  { s1 with timers := bleArmedTimers s1.settings }

/-- BLE `disconnect`: clear the timer, disconnect the peripheral, and
clear the handle, characteristics, device, client id and buffer
together. -/
def bleDisconnect (s : BLEState) : BLEState :=
  let s1 := bleClearReconnectTimer s
  { s1 with connectedPeripheral := none, rxCharacteristic := false,
            txCharacteristic := false, connectedDevice := none, clientId := none,
            buffer := [], sessions := 0 }

/-- BLE `handleDisconnect`: clear the session fields together and,
unless shutting down, schedule a reconnect. -/
def bleHandleDisconnect (s : BLEState) : BLEState :=
  let s1 := { s with connectedPeripheral := none, rxCharacteristic := false,
                     txCharacteristic := false, connectedDevice := none,
                     clientId := none, buffer := [] }
  if !s1.isShuttingDown then bleScheduleReconnect s1 else s1

/-- The peripheral `disconnect` event: the session is over; the
registered listener runs `handleDisconnect` only when not shutting
down. -/
def bleDisconnectEvent (s : BLEState) : BLEState :=
  let s1 := { s with sessions := 0 }
  if !s1.isShuttingDown then bleHandleDisconnect s1 else s1

/-- The prefix of BLE `connect` before the attempt: clear any pending
reconnect timer, and tear down the existing session if one is active. -/
def bleConnectPrep (s : BLEState) : BLEState :=
  let s1 := bleClearReconnectTimer s
  if s1.connectedPeripheral.isSome then bleDisconnect s1 else s1

/-- BLE `connect(deviceId, deviceName)` (lines 169-204 of the BLE
manager): prep, then find/connect/discover/subscribe (collapsed into
`ok`; every failure mode leaves the session fields untouched), and on
success capture the peripheral, characteristics, device, client id, and
persist the device with auto-connect enabled. -/
def bleConnect (s : BLEState) (d : BLEDevice) (ok : Bool) : BLEState :=
  let s2 := bleConnectPrep s
  let s3 := { s2 with attempts := s2.attempts + 1 }
  if ok then
    { s3 with connectedPeripheral := some d.id,
              rxCharacteristic := true, txCharacteristic := true,
              connectedDevice := some d,
              clientId := some (bleClientId d.id),
              sessions := s3.sessions + 1,
              settings := { bleDevice := some d, bleAutoConnect := true } }
  else s3

/-- The armed BLE reconnect timer fires: return immediately when
shutting down or already connected, otherwise run `connect` on the
captured device and reschedule on failure. -/
def bleFire (s : BLEState) (ok : Bool) : BLEState :=
  match s.timers with
  | [] => s
  | t :: rest =>
    let s1 := { s with timers := rest }
    if s1.isShuttingDown || s1.connectedPeripheral.isSome then s1
    else
      let s2 := bleConnect s1 t.device ok
      if ok then s2 else bleScheduleReconnect s2

/-- BLE `shutdown`: raise the flag, stop scanning (not modelled), then
disconnect. -/
def bleShutdown (s : BLEState) : BLEState :=
  bleDisconnect { s with isShuttingDown := true }

/-- The operations and events that can act on an initialized BLE
manager. -/
inductive BLEAction where
  | connect (d : BLEDevice) (ok : Bool)
  | disconnectEvent
  | fireReconnect (ok : Bool)
  | dataEvent (chunk : List Char)
  | disconnect
  | shutdown
  | updateSettings (st : BLESettings)

/-- One step of the BLE manager. -/
def bleStep (s : BLEState) : BLEAction → BLEState
  | .connect d ok => bleConnect s d ok
  | .disconnectEvent => bleDisconnectEvent s
  | .fireReconnect ok => bleFire s ok
  | .dataEvent chunk => { s with buffer := (framer (s.buffer ++ chunk)).2 }
  | .disconnect => bleDisconnect s
  | .shutdown => bleShutdown s
  | .updateSettings st => { s with settings := st }

/-- The state right after BLE `initialize` succeeds. -/
def bleInit : BLEState :=
  { connectedPeripheral := none, rxCharacteristic := false, txCharacteristic := false,
    connectedDevice := none, clientId := none, buffer := [], timers := [],
    isShuttingDown := false,
    settings := { bleDevice := none, bleAutoConnect := true },
    sessions := 0, attempts := 0 }

/-- Run a sequence of actions from a BLE state. -/
def bleRun (s : BLEState) (acts : List BLEAction) : BLEState := acts.foldl bleStep s

/-- The inductive invariant of the BLE manager. -/
def BLEInv (s : BLEState) : Prop :=
  s.timers.length ≤ 1
  ∧ s.sessions ≤ 1
  ∧ (s.connectedPeripheral = none → s.sessions = 0)
  ∧ s.clientId.isSome = s.connectedPeripheral.isSome

theorem bleArmedTimers_len (st : BLESettings) : (bleArmedTimers st).length ≤ 1 := by
  unfold bleArmedTimers
  cases st.bleDevice <;> simp
  split_ifs <;> simp

theorem bleInv_init : BLEInv bleInit := by
  refine ⟨?_, ?_, ?_, ?_⟩ <;> simp [bleInit, BLEInv]

theorem bleInv_step (s : BLEState) (a : BLEAction) (h : BLEInv s) : BLEInv (bleStep s a) := by
  obtain ⟨h1, h2, h3, h4⟩ := h
  cases a with
  | connect d ok =>
    cases ok <;>
      simp_all [bleStep, bleConnect, bleConnectPrep, bleDisconnect,
        bleClearReconnectTimer, BLEInv] <;>
      split_ifs <;> simp_all
  | disconnectEvent =>
    by_cases hs : s.isShuttingDown <;>
      simp_all [bleStep, bleDisconnectEvent, bleHandleDisconnect, bleScheduleReconnect,
        bleClearReconnectTimer, BLEInv, bleArmedTimers_len]
  | fireReconnect ok =>
    have hlen := bleArmedTimers_len s.settings
    cases ht : s.timers with
    | nil => simp_all [bleStep, bleFire, BLEInv]
    | cons t rest =>
      cases ok <;>
        simp_all [bleStep, bleFire, bleConnect, bleConnectPrep, bleDisconnect,
          bleScheduleReconnect, bleClearReconnectTimer, BLEInv] <;>
        split_ifs <;> simp_all
  | dataEvent chunk => simp_all [bleStep, BLEInv]
  | disconnect => simp_all [bleStep, bleDisconnect, bleClearReconnectTimer, BLEInv]
  | shutdown => simp_all [bleStep, bleShutdown, bleDisconnect, bleClearReconnectTimer, BLEInv]
  | updateSettings st => simp_all [bleStep, BLEInv]

theorem bleInv_run (s : BLEState) (acts : List BLEAction) (h : BLEInv s) :
    BLEInv (bleRun s acts) := by
  induction acts generalizing s with
  | nil => exact h
  | cons a as ih => exact ih _ (bleInv_step s a h)

/-- Actions of the Classic manager initiated by the device or by an
armed timer, rather than by the host calling manager methods. -/
def btDeviceEvent : BTAction → Bool
  | .closedEvent => true
  | .failureEvent => true
  | .fireReconnect _ => true
  | .dataEvent _ => true
  | _ => false

/-- Actions of the BLE manager initiated by the device or a timer. -/
def bleDeviceEvent : BLEAction → Bool
  | .disconnectEvent => true
  | .fireReconnect _ => true
  | .dataEvent _ => true
  | _ => false

theorem btDeviceStep_shutdown (s : BTState) (a : BTAction)
    (hs : s.isShuttingDown = true) (ha : btDeviceEvent a = true) :
    (btStep s a).isShuttingDown = true ∧ (btStep s a).attempts = s.attempts
    ∧ (btStep s a).timers.length ≤ s.timers.length := by
  cases a with
  | closedEvent => simp [btStep, btClosedEvent, hs]
  | failureEvent => simp [btStep, btClosedEvent, hs]
  | fireReconnect ok =>
    cases ht : s.timers with
    | nil => simp [btStep, btFire, ht, hs]
    | cons t rest => simp [btStep, btFire, ht, hs]
  | dataEvent c => simp [btStep, hs]
  | connect d ok => simp [btDeviceEvent] at ha
  | disconnect => simp [btDeviceEvent] at ha
  | shutdown => simp [btDeviceEvent] at ha
  | updateSettings st => simp [btDeviceEvent] at ha

theorem btRun_shutdown (s : BTState) (acts : List BTAction)
    (hs : s.isShuttingDown = true) (ha : ∀ a ∈ acts, btDeviceEvent a = true) :
    (btRun s acts).isShuttingDown = true ∧ (btRun s acts).attempts = s.attempts
    ∧ (btRun s acts).timers.length ≤ s.timers.length := by
  induction acts generalizing s with
  | nil => exact ⟨hs, rfl, le_rfl⟩
  | cons a as ih =>
    have h1 := btDeviceStep_shutdown s a hs (ha a (by simp))
    have h2 := ih (btStep s a) h1.1 (fun b hb => ha b (by simp [hb]))
    exact ⟨h2.1, h2.2.1.trans h1.2.1, h2.2.2.trans h1.2.2⟩

theorem bleDeviceStep_shutdown (s : BLEState) (a : BLEAction)
    (hs : s.isShuttingDown = true) (ha : bleDeviceEvent a = true) :
    (bleStep s a).isShuttingDown = true ∧ (bleStep s a).attempts = s.attempts
    ∧ (bleStep s a).timers.length ≤ s.timers.length := by
  cases a with
  | disconnectEvent => simp [bleStep, bleDisconnectEvent, hs]
  | fireReconnect ok =>
    cases ht : s.timers with
    | nil => simp [bleStep, bleFire, ht, hs]
    | cons t rest => simp [bleStep, bleFire, ht, hs]
  | dataEvent c => simp [bleStep, hs]
  | connect d ok => simp [bleDeviceEvent] at ha
  | disconnect => simp [bleDeviceEvent] at ha
  | shutdown => simp [bleDeviceEvent] at ha
  | updateSettings st => simp [bleDeviceEvent] at ha

theorem bleRun_shutdown (s : BLEState) (acts : List BLEAction)
    (hs : s.isShuttingDown = true) (ha : ∀ a ∈ acts, bleDeviceEvent a = true) :
    (bleRun s acts).isShuttingDown = true ∧ (bleRun s acts).attempts = s.attempts
    ∧ (bleRun s acts).timers.length ≤ s.timers.length := by
  induction acts generalizing s with
  | nil => exact ⟨hs, rfl, le_rfl⟩
  | cons a as ih =>
    have h1 := bleDeviceStep_shutdown s a hs (ha a (by simp))
    have h2 := ih (bleStep s a) h1.1 (fun b hb => ha b (by simp [hb]))
    exact ⟨h2.1, h2.2.1.trans h1.2.1, h2.2.2.trans h1.2.2⟩

/-- The record `BluetoothManager.getStatus` returns. -/
structure BTStatus where
  initialized : Bool
  connected : Bool
  device : Option BTDevice
  clientId : Option String

/-- Model of `getStatus` (`src/bluetooth/bluetooth-manager.js` lines 251-258);
`initialized` is `!!this.btSerial`, constantly true after a successful
`initialize`. -/
def btGetStatus (s : BTState) : BTStatus :=
  { initialized := true, connected := s.connectedDevice.isSome,
    device := s.connectedDevice, clientId := s.clientId }

/-- The record `BLEManager.getStatus` returns. -/
structure BLEStatus where
  initialized : Bool
  connected : Bool
  device : Option BLEDevice
  clientId : Option String
  btype : String

/-- BLE `getStatus`: `connected` is `this.connectedPeripheral !==
null`. -/
def bleGetStatus (s : BLEState) : BLEStatus :=
  { initialized := true, connected := s.connectedPeripheral.isSome,
    device := s.connectedDevice, clientId := s.clientId, btype := "ble" }

/-- C3: in every reachable state of either manager at most one reconnect
timer is pending; `scheduleReconnect` replaces whatever was pending with
exactly the timers the settings allow (so it always clears before
arming); the armed set is empty unless a saved device identifier exists
and auto-connect is enabled, in which case it is exactly one 5000 ms
timer; and a pending timer that fires and fails leaves exactly the
newly rescheduled timers — never two outstanding at once. -/
theorem transport_single_reconnect_timer :
    (∀ acts, (btRun btInit acts).timers.length ≤ 1)
  ∧ (∀ s : BTState, (btScheduleReconnect s).timers = btArmedTimers s.settings)
  ∧ (∀ st : BTSettings, btArmedTimers st = []
      ∨ ∃ d, st.bluetoothDevice = some d ∧ d.address ≠ "" ∧ st.bluetoothAutoConnect = true
          ∧ btArmedTimers st = [⟨RECONNECT_DELAY_MS, d⟩])
  ∧ (∀ (s : BTState) (t : BTTimer), s.timers = [t] → s.isShuttingDown = false →
      s.connectedDevice = none → (btFire s false).timers = btArmedTimers s.settings)
  ∧ (∀ acts, (bleRun bleInit acts).timers.length ≤ 1)
  ∧ (∀ s : BLEState, (bleScheduleReconnect s).timers = bleArmedTimers s.settings)
  ∧ (∀ st : BLESettings, bleArmedTimers st = []
      ∨ ∃ d, st.bleDevice = some d ∧ d.id ≠ "" ∧ st.bleAutoConnect = true
          ∧ bleArmedTimers st = [⟨RECONNECT_DELAY_MS, d⟩])
  ∧ (∀ (s : BLEState) (t : BLETimer), s.timers = [t] → s.isShuttingDown = false →
      s.connectedPeripheral = none → (bleFire s false).timers = bleArmedTimers s.settings)
  ∧ RECONNECT_DELAY_MS = 5000 := by
  refine ⟨fun acts => (btInv_run btInit acts btInv_init).1, fun s => rfl, ?_, ?_,
    fun acts => (bleInv_run bleInit acts bleInv_init).1, fun s => rfl, ?_, ?_, rfl⟩
  · intro st
    cases hd : st.bluetoothDevice with
    | none => exact Or.inl (by simp [btArmedTimers, hd])
    | some d =>
      by_cases hc : (d.address != "" && st.bluetoothAutoConnect) = true
      · right
        have hc' := hc
        simp only [Bool.and_eq_true, bne_iff_ne, ne_eq] at hc'
        exact ⟨d, rfl, hc'.1, hc'.2, by simp [btArmedTimers, hd, hc]⟩
      · exact Or.inl (by simp [btArmedTimers, hd, hc])
  · intro s t h1 h2 h3
    simp [btFire, h1, h2, h3, btTryConnect, btScheduleReconnect, btClearReconnectTimer]
  · intro st
    cases hd : st.bleDevice with
    | none => exact Or.inl (by simp [bleArmedTimers, hd])
    | some d =>
      by_cases hc : (d.id != "" && st.bleAutoConnect) = true
      · right
        have hc' := hc
        simp only [Bool.and_eq_true, bne_iff_ne, ne_eq] at hc'
        exact ⟨d, rfl, hc'.1, hc'.2, by simp [bleArmedTimers, hd, hc]⟩
      · exact Or.inl (by simp [bleArmedTimers, hd, hc])
  · intro s t h1 h2 h3
    simp [bleFire, h1, h2, h3, bleConnect, bleConnectPrep, bleDisconnect,
      bleScheduleReconnect, bleClearReconnectTimer]

/-- Witness for `transport_single_reconnect_timer`: a fired-and-failed
timer at a concrete state reschedules exactly one timer. -/
theorem transport_single_reconnect_timer_witness :
    (btFire
      { connectedDevice := none, clientId := none, buffer := [],
        timers := [⟨5000, ⟨"AA:BB:CC:DD:EE:FF", 1⟩⟩], isShuttingDown := false,
        settings := { bluetoothDevice := some ⟨"AA:BB:CC:DD:EE:FF", 1⟩,
                      bluetoothAutoConnect := true },
        sessions := 0, attempts := 0 } false).timers
      = btArmedTimers { bluetoothDevice := some ⟨"AA:BB:CC:DD:EE:FF", 1⟩,
                        bluetoothAutoConnect := true }
  ∧ (bleFire
      { connectedPeripheral := none, rxCharacteristic := false, txCharacteristic := false,
        connectedDevice := none, clientId := none, buffer := [],
        timers := [⟨5000, ⟨"abc123", "ncSenderPendant"⟩⟩], isShuttingDown := false,
        settings := { bleDevice := some ⟨"abc123", "ncSenderPendant"⟩,
                      bleAutoConnect := true },
        sessions := 0, attempts := 0 } false).timers
      = bleArmedTimers { bleDevice := some ⟨"abc123", "ncSenderPendant"⟩,
                         bleAutoConnect := true } :=
  ⟨transport_single_reconnect_timer.2.2.2.1 _ _ rfl rfl rfl,
   transport_single_reconnect_timer.2.2.2.2.2.2.2.1 _ _ rfl rfl rfl⟩

/-- C5: `connect()` first clears any pending reconnect timer and tears
down any active session before the new attempt begins (after the prep
phase no timer is pending and no device/peripheral is connected), and
from any reachable state a `connect` call leaves exactly one live
session on success and none on failure — so at most one connection is
ever active per manager, as the reachable-state session bound states. -/
theorem transport_connect_single_session :
    (∀ acts, (btRun btInit acts).sessions ≤ 1)
  ∧ (∀ s : BTState, (btConnectPrep s).timers = [] ∧ (btConnectPrep s).connectedDevice = none)
  ∧ (∀ acts d ok, (btConnect (btRun btInit acts) d ok).sessions = if ok then 1 else 0)
  ∧ (∀ acts, (bleRun bleInit acts).sessions ≤ 1)
  ∧ (∀ s : BLEState, (bleConnectPrep s).timers = []
      ∧ (bleConnectPrep s).connectedPeripheral = none)
  ∧ (∀ acts d ok, (bleConnect (bleRun bleInit acts) d ok).sessions = if ok then 1 else 0) := by
  refine ⟨fun acts => (btInv_run btInit acts btInv_init).2.1, ?_, ?_,
    fun acts => (bleInv_run bleInit acts bleInv_init).2.1, ?_, ?_⟩
  · intro s
    by_cases h : s.connectedDevice.isSome
    · simp [btConnectPrep, btDisconnect, btClearReconnectTimer, h]
    · have hn : s.connectedDevice = none := Option.not_isSome_iff_eq_none.mp h
      simp [btConnectPrep, btClearReconnectTimer, h, hn]
  · intro acts d ok
    have hinv := btInv_run btInit acts btInv_init
    obtain ⟨h1, h2, h3, h4⟩ := hinv
    cases ok <;>
      simp_all [btConnect, btConnectPrep, btTryConnect, btDisconnect,
        btClearReconnectTimer] <;>
      split_ifs <;> simp_all
  · intro s
    by_cases h : s.connectedPeripheral.isSome
    · simp [bleConnectPrep, bleDisconnect, bleClearReconnectTimer, h]
    · have hn : s.connectedPeripheral = none := Option.not_isSome_iff_eq_none.mp h
      simp [bleConnectPrep, bleClearReconnectTimer, h, hn]
  · intro acts d ok
    have hinv := bleInv_run bleInit acts bleInv_init
    obtain ⟨h1, h2, h3, h4⟩ := hinv
    cases ok <;>
      simp_all [bleConnect, bleConnectPrep, bleDisconnect, bleClearReconnectTimer] <;>
      split_ifs <;> simp_all

/-- C9: `shutdown()` raises the terminal flag, tears down the open
connection, and leaves no timer pending; a close/failure event during
shutdown only marks the session gone without any disconnect handling;
and across any subsequent device/timer events the flag stays raised, no
connect attempt is ever made (`attempts` is constant) and no reconnect
timer is ever armed. -/
theorem transport_shutdown_no_reconnect :
    (∀ s : BTState, (btShutdown s).isShuttingDown = true ∧ (btShutdown s).timers = []
      ∧ (btShutdown s).sessions = 0 ∧ (btShutdown s).connectedDevice = none)
  ∧ (∀ s : BTState, s.isShuttingDown = true → btClosedEvent s = { s with sessions := 0 })
  ∧ (∀ (s : BTState) acts, s.isShuttingDown = true →
      (∀ a ∈ acts, btDeviceEvent a = true) →
      (btRun s acts).isShuttingDown = true
      ∧ (btRun s acts).attempts = s.attempts
      ∧ (btRun s acts).timers.length ≤ s.timers.length)
  ∧ (∀ s : BLEState, (bleShutdown s).isShuttingDown = true ∧ (bleShutdown s).timers = []
      ∧ (bleShutdown s).sessions = 0 ∧ (bleShutdown s).connectedPeripheral = none)
  ∧ (∀ s : BLEState, s.isShuttingDown = true →
      bleDisconnectEvent s = { s with sessions := 0 })
  ∧ (∀ (s : BLEState) acts, s.isShuttingDown = true →
      (∀ a ∈ acts, bleDeviceEvent a = true) →
      (bleRun s acts).isShuttingDown = true
      ∧ (bleRun s acts).attempts = s.attempts
      ∧ (bleRun s acts).timers.length ≤ s.timers.length) := by
  refine ⟨?_, ?_, btRun_shutdown, ?_, ?_, bleRun_shutdown⟩
  · intro s
    simp [btShutdown, btDisconnect, btClearReconnectTimer]
  · intro s hs
    simp [btClosedEvent, hs]
  · intro s
    simp [bleShutdown, bleDisconnect, bleClearReconnectTimer]
  · intro s hs
    simp [bleDisconnectEvent, hs]

/-- Witness for `transport_shutdown_no_reconnect`: after shutting down
the freshly initialized managers, a spurious timer firing and a close
event change neither the attempt count nor the (absent) timers. -/
theorem transport_shutdown_no_reconnect_witness :
    ((btRun (btShutdown btInit) [.fireReconnect true, .closedEvent]).isShuttingDown = true
      ∧ (btRun (btShutdown btInit) [.fireReconnect true, .closedEvent]).attempts
          = (btShutdown btInit).attempts
      ∧ (btRun (btShutdown btInit) [.fireReconnect true, .closedEvent]).timers.length
          ≤ (btShutdown btInit).timers.length)
  ∧ ((bleRun (bleShutdown bleInit) [.fireReconnect true, .disconnectEvent]).isShuttingDown = true
      ∧ (bleRun (bleShutdown bleInit) [.fireReconnect true, .disconnectEvent]).attempts
          = (bleShutdown bleInit).attempts
      ∧ (bleRun (bleShutdown bleInit) [.fireReconnect true, .disconnectEvent]).timers.length
          ≤ (bleShutdown bleInit).timers.length) :=
  ⟨transport_shutdown_no_reconnect.2.2.1 (btShutdown btInit)
      [.fireReconnect true, .closedEvent] rfl (by decide),
   transport_shutdown_no_reconnect.2.2.2.2.2 (bleShutdown bleInit)
      [.fireReconnect true, .disconnectEvent] rfl (by decide)⟩

/-- C10: in every reachable state of either manager, `getStatus` reports
a client id exactly when it reports `connected` (the id is derived and
stored only together with the connection record), and every disconnect
path — `handleDisconnect`, `disconnect`, `shutdown` — clears the
connection handle, the client id and the partial-line buffer together
(BLE also clears both characteristic handles). -/
theorem transport_status_clientId_connected :
    (∀ acts, (btGetStatus (btRun btInit acts)).clientId.isSome
        = (btGetStatus (btRun btInit acts)).connected)
  ∧ (∀ s : BTState, (btDisconnect s).connectedDevice = none
      ∧ (btDisconnect s).clientId = none ∧ (btDisconnect s).buffer = [])
  ∧ (∀ s : BTState, (btHandleDisconnect s).connectedDevice = none
      ∧ (btHandleDisconnect s).clientId = none ∧ (btHandleDisconnect s).buffer = [])
  ∧ (∀ s : BTState, (btShutdown s).connectedDevice = none
      ∧ (btShutdown s).clientId = none ∧ (btShutdown s).buffer = [])
  ∧ (∀ acts, (bleGetStatus (bleRun bleInit acts)).clientId.isSome
        = (bleGetStatus (bleRun bleInit acts)).connected)
  ∧ (∀ s : BLEState, (bleDisconnect s).connectedPeripheral = none
      ∧ (bleDisconnect s).rxCharacteristic = false
      ∧ (bleDisconnect s).txCharacteristic = false
      ∧ (bleDisconnect s).connectedDevice = none
      ∧ (bleDisconnect s).clientId = none ∧ (bleDisconnect s).buffer = [])
  ∧ (∀ s : BLEState, (bleHandleDisconnect s).connectedPeripheral = none
      ∧ (bleHandleDisconnect s).rxCharacteristic = false
      ∧ (bleHandleDisconnect s).txCharacteristic = false
      ∧ (bleHandleDisconnect s).connectedDevice = none
      ∧ (bleHandleDisconnect s).clientId = none ∧ (bleHandleDisconnect s).buffer = [])
  ∧ (∀ s : BLEState, (bleShutdown s).connectedPeripheral = none
      ∧ (bleShutdown s).clientId = none ∧ (bleShutdown s).buffer = []) := by
  refine ⟨?_, ?_, ?_, ?_, ?_, ?_, ?_, ?_⟩
  · intro acts
    exact (btInv_run btInit acts btInv_init).2.2.2
  · intro s
    simp [btDisconnect, btClearReconnectTimer]
  · intro s
    by_cases hs : s.isShuttingDown <;>
      simp [btHandleDisconnect, btScheduleReconnect, btClearReconnectTimer, hs]
  · intro s
    simp [btShutdown, btDisconnect, btClearReconnectTimer]
  · intro acts
    exact (bleInv_run bleInit acts bleInv_init).2.2.2
  · intro s
    simp [bleDisconnect, bleClearReconnectTimer]
  · intro s
    by_cases hs : s.isShuttingDown <;>
      simp [bleHandleDisconnect, bleScheduleReconnect, bleClearReconnectTimer, hs]
  · intro s
    simp [bleShutdown, bleDisconnect, bleClearReconnectTimer]
